import Mathlib

/-!
Verification of `src/main.py` of the bulk_image_resizer repository: a shallow
embedding of the image-processing worker (`Worker.run`) and the input
validation of the UI (`MainWindow.start_conversion`), with theorems settling
the specification's claims about them.
-/

set_option maxRecDepth 2000

namespace BulkResizer

/-- PIL image modes that appear in the program (`img.mode`); `RGBA` carries an
alpha channel and `P` is palette mode, the two modes the JPEG branch
flattens. -/
inductive Mode where
  | RGB
  | RGBA
  | P
  | L
  | CMYK
deriving DecidableEq, Repr

/-- A decoded image: its pixel dimensions (`img.size`) and mode (`img.mode`).
Pixel contents are irrelevant to every claim and are not modelled. -/
structure Image where
  width : Nat
  height : Nat
  mode : Mode
deriving DecidableEq, Repr

/-- A file in the source directory: its filename (final path component,
`img_path.name`) and its decoded content.  `none` models a file the imaging
library cannot decode (a corrupt image), making `Image.open` raise. -/
structure FileEntry where
  name : String
  content : Option Image
deriving DecidableEq, Repr

/-- The validated job configuration handed to `Worker.__init__`
(`target_size`, `jpeg_quality`, `overwrite`).  Directories are modelled
separately as the file listing and the destination-existence flag. -/
structure Config where
  targetSize : Nat
  jpegQuality : Nat
  overwrite : Bool
deriving DecidableEq, Repr

/-- The new size computed by `Worker.run` lines 60-68: exact-arithmetic
semantics of `ratio = target_size / current_max;
new_size = (int(width * ratio), int(height * ratio))` — for nonnegative
operands Python's `int` truncation is the floor, so each component is
`⌊side * target / current_max⌋`, i.e. `Nat` division.  When the longest side
does not exceed the target the size is left unchanged (the `img.copy()`
branch). -/
def computeNewSize (target w h : Nat) : Nat × Nat :=
  let currentMax := max w h
  if currentMax ≤ target then (w, h)
  else (w * target / currentMax, h * target / currentMax)

/-- Modelled from the spec: `img.resize` is the external imaging library
(PIL), not code of this repository.  Resizing to a size with a zero component
cannot produce a well-formed image and raises, landing in the per-file error
branch; otherwise it returns an image of the requested size with the mode
unchanged. -/
def pilResize (img : Image) (sz : Nat × Nat) : Except String Image :=
  if sz.1 = 0 ∨ sz.2 = 0 then
    Except.error "height and width must be > 0"
  else
    Except.ok { width := sz.1, height := sz.2, mode := img.mode }

/-- `pathlib.PurePath.suffix` of a filename: the substring from the last dot,
empty when there is no dot, when the dot is the first character, or when the
dot is the last character. -/
def pathSuffix (name : String) : String :=
  let rev := name.toList.reverse
  let afterDot := rev.takeWhile (fun c => c ≠ '.')
  if afterDot.length = rev.length then ""
  else if afterDot.length = 0 then ""
  else if afterDot.length = rev.length - 1 then ""
  else String.mk ('.' :: afterDot.reverse)

/-- `str.lower()` for the ASCII extensions at hand: lowercase each
character. -/
def strLower (s : String) : String :=
  String.mk (s.toList.map Char.toLower)

/-- Whether filename `name` matches the glob pattern `*` followed by `suf` on
a case-sensitive filesystem: `*` matches any character sequence, so the
pattern matches exactly the names ending in `suf`, compared
case-sensitively. -/
def matchesExt (name suf : String) : Bool :=
  suf.toList.isSuffixOf name.toList

/-- What `new_img.save(...)` is invoked with, per file: the format string, the
`quality` keyword (absent for PNG), the `optimize` flag, and the image handed
to the encoder — its dimensions, its mode, and, when the JPEG branch
flattened an `RGBA`/`P` image, the RGB background it was pasted onto
(`(255, 255, 255)`, white). -/
structure EncodedOutput where
  format : String
  quality : Option Nat
  optimize : Bool
  width : Nat
  height : Nat
  mode : Mode
  background : Option (Nat × Nat × Nat)
deriving DecidableEq, Repr

/-- The save step of `Worker.run` (lines 74-92): `ext = save_path.suffix.lower()`;
for `.jpg`/`.jpeg` the image is flattened onto a white `RGB` background when
its mode is `RGBA` or `P` and saved as JPEG with the user quality and
`optimize=True`; every other extension is saved as PNG with `optimize=True`
and no quality.  The saved file keeps the source file's name, so
`save_path.suffix` equals the source name's suffix in both overwrite and
destination modes. -/
def saveImage (cfg : Config) (name : String) (newImg : Image) : EncodedOutput :=
  let ext := strLower (pathSuffix name)
  if ext = ".jpg" ∨ ext = ".jpeg" then
    if newImg.mode = Mode.RGBA ∨ newImg.mode = Mode.P then
      { format := "JPEG", quality := some cfg.jpegQuality, optimize := true,
        width := newImg.width, height := newImg.height,
        mode := Mode.RGB, background := some (255, 255, 255) }
    else
      { format := "JPEG", quality := some cfg.jpegQuality, optimize := true,
        width := newImg.width, height := newImg.height,
        mode := newImg.mode, background := none }
  else
    { format := "PNG", quality := none, optimize := true,
      width := newImg.width, height := newImg.height,
      mode := newImg.mode, background := none }

/-- The body of the per-file `try` block of `Worker.run` (lines 55-92): decode
the file (`Image.open` raises on a corrupt file), leave the image unchanged
when its longest side is within the target or resize it otherwise, then save
it according to the saved file's extension.  Errors are the raised exceptions
the surrounding `except` catches. -/
def processFile (cfg : Config) (f : FileEntry) : Except String EncodedOutput :=
  match f.content with
  | none => Except.error "cannot identify image file"
  | some img =>
    let resized : Except String Image :=
      if max img.width img.height ≤ cfg.targetSize then
        Except.ok img
      else
        pilResize img (computeNewSize cfg.targetSize img.width img.height)
    match resized with
    | Except.error e => Except.error e
    | Except.ok newImg => Except.ok (saveImage cfg f.name newImg)

/-- The signals a `Worker` emits while running: `progress(int)`, `log(str)`
and `finished()`. -/
inductive Event where
  | progress (pct : Nat)
  | log (line : String)
  | finished
deriving DecidableEq, Repr

/-- `input_path.glob(pat)` for a pattern `*.<ext>`: the directory entries whose
names end in the extension, in directory enumeration order. -/
def globExt (dirFiles : List FileEntry) (suf : String) : List FileEntry :=
  dirFiles.filter (fun f => matchesExt f.name suf)

/-- `Worker.run` lines 43-45: the enumerated image list is the `*.jpg`
matches, then the `*.jpeg` matches, then the `*.png` matches. -/
def enumerateImages (dirFiles : List FileEntry) : List FileEntry :=
  globExt dirFiles ".jpg" ++ globExt dirFiles ".jpeg" ++ globExt dirFiles ".png"

/-- The log line a file's iteration emits: `Processed: <name>` on success,
`Error with <name>: <message>` when the `try` body raised. -/
def fileLog (cfg : Config) (f : FileEntry) : Event :=
  match processFile cfg f with
  | Except.ok _ => Event.log ("Processed: " ++ f.name)
  | Except.error e => Event.log ("Error with " ++ f.name ++ ": " ++ e)

/-- The events of the `for i, img_path in enumerate(image_files)` loop,
starting at index `i`: each file contributes its log line followed by
`progress(int((i + 1) / total * 100))`, whose exact-arithmetic value is
`(i + 1) * 100 / total` (floor). -/
def loopEvents (cfg : Config) (total : Nat) : List FileEntry → Nat → List Event
  | [], _ => []
  | f :: rest, i =>
      fileLog cfg f :: Event.progress ((i + 1) * 100 / total) ::
        loopEvents cfg total rest (i + 1)

/-- The files the loop actually saves: one `(filename, encoder invocation)`
pair per file whose `try` body succeeded; a file that raised saves nothing. -/
def loopOutputs (cfg : Config) : List FileEntry → List (String × EncodedOutput)
  | [] => []
  | f :: rest =>
      match processFile cfg f with
      | Except.ok out => (f.name, out) :: loopOutputs cfg rest
      | Except.error _ => loopOutputs cfg rest

/-- The observable outcome of one `Worker.run` call. -/
structure RunResult where
  events : List Event
  outputs : List (String × EncodedOutput)
  mkdirCalled : Bool
  destExistsAfter : Bool
deriving DecidableEq, Repr

/-- `Worker.run` (lines 35-104) over a source directory listing and a
destination-directory existence flag: in non-overwrite mode the destination
directory is created first when absent (`mkdir(parents=True, exist_ok=True)`,
line 40-41; in overwrite mode `output_path` is `None` and no directory is
touched); then the images are enumerated.  The `finally` block (line 104)
emits `finished` on every exit path, so with no matches the worker logs
`No images found in the source folder.`, emits `finished` explicitly
(line 50), and the early `return` then runs the `finally`, emitting
`finished` a second time; otherwise the worker runs the per-file loop, logs
`Conversion completed.`, and the `finally` emits the single `finished`. -/
def workerRun (cfg : Config) (dirFiles : List FileEntry) (destExists : Bool) :
    RunResult :=
  let mkdirCalled := !cfg.overwrite && !destExists
  let destAfter := if cfg.overwrite then destExists else true
  let images := enumerateImages dirFiles
  let total := images.length
  if total = 0 then
    { events := [Event.log "No images found in the source folder.",
        Event.finished, Event.finished],
      outputs := [], mkdirCalled := mkdirCalled, destExistsAfter := destAfter }
  else
    { events := loopEvents cfg total images 0 ++
        [Event.log "Conversion completed.", Event.finished],
      outputs := loopOutputs cfg images,
      mkdirCalled := mkdirCalled, destExistsAfter := destAfter }

/-- The progress percentages among a list of events, in emission order. -/
def progressValues : List Event → List Nat
  | [] => []
  | Event.progress n :: rest => n :: progressValues rest
  | _ :: rest => progressValues rest

/-- Python `str.isdigit` restricted to ASCII text: nonempty and all digits. -/
def pyIsdigit (s : String) : Bool :=
  !s.toList.isEmpty && s.toList.all Char.isDigit

/-- Python `int(s)` on a string of ASCII digits: its decimal value. -/
def pyInt (s : String) : Nat :=
  s.toList.foldl (fun n c => n * 10 + (c.toNat - 48)) 0

/-- The state `MainWindow.start_conversion` reads: the four text fields, the
overwrite checkbox, and the filesystem oracle `os.path.isdir`. -/
structure UIState where
  inputText : String
  outputText : String
  sizeText : String
  qualityText : String
  overwrite : Bool

/-- What `start_conversion` does with a submission: reject it with exactly
one appended log line, or create and start a worker with the parsed
configuration. -/
inductive StartResult where
  | rejected (logLine : String)
  | started (cfg : Config)
deriving Repr

/-- `MainWindow.start_conversion` lines 201-235: strip the fields, run the
four validation checks in order — source folder, destination folder (skipped
in overwrite mode), size, quality — returning on the first failure with its
error log line, and only when all pass construct the `Worker`. -/
def startConversion (isdir : String → Bool) (ui : UIState) : StartResult :=
  let inputDir := ui.inputText.trim
  let outputDir := ui.outputText.trim
  let sizeText := ui.sizeText.trim
  let qualityText := ui.qualityText.trim
  if inputDir = "" ∨ ¬ isdir inputDir then
    StartResult.rejected "Error: Invalid source folder."
  else if ¬ ui.overwrite ∧ (outputDir = "" ∨ ¬ isdir outputDir) then
    StartResult.rejected "Error: Invalid destination folder."
  else if ¬ pyIsdigit sizeText ∨ pyInt sizeText ≤ 0 then
    StartResult.rejected
      "Error: Please enter a valid number greater than 0 for the image size."
  else if ¬ pyIsdigit qualityText ∨ ¬ (1 ≤ pyInt qualityText ∧ pyInt qualityText ≤ 95) then
    StartResult.rejected "Error: Image quality must be a number between 1 and 95."
  else
    StartResult.started
      { targetSize := pyInt sizeText, jpegQuality := pyInt qualityText,
        overwrite := ui.overwrite }

example : computeNewSize 100 200 100 = (100, 50) := by decide
example : computeNewSize 100 1 200 = (0, 100) := by decide
example : computeNewSize 100 50 60 = (50, 60) := by decide
example : pathSuffix "a.jpg" = ".jpg" := by decide
example : pathSuffix ".jpg" = "" := by decide
example : pathSuffix "a." = "" := by decide
example : pathSuffix "photo.JPG" = ".JPG" := by decide
example : matchesExt "photo.JPG" ".jpg" = false := by decide
example : matchesExt "photo.jpg" ".jpg" = true := by decide
example : matchesExt "x.jpeg" ".jpg" = false := by decide

example :
    processFile ⟨1920, 80, false⟩ ⟨"a.jpg", some ⟨800, 600, Mode.RGB⟩⟩ =
      Except.ok ⟨"JPEG", some 80, true, 800, 600, Mode.RGB, none⟩ := rfl

example :
    processFile ⟨100, 90, false⟩ ⟨"b.png", some ⟨200, 100, Mode.RGBA⟩⟩ =
      Except.ok ⟨"PNG", none, true, 100, 50, Mode.RGBA, none⟩ := rfl

example :
    processFile ⟨100, 90, false⟩ ⟨"c.jpeg", some ⟨100, 200, Mode.P⟩⟩ =
      Except.ok ⟨"JPEG", some 90, true, 50, 100, Mode.RGB, some (255, 255, 255)⟩ :=
  rfl

example :
    processFile ⟨100, 90, false⟩ ⟨"d.jpg", none⟩ =
      Except.error "cannot identify image file" := rfl

example :
    processFile ⟨100, 90, false⟩ ⟨"tall.png", some ⟨1, 200, Mode.RGB⟩⟩ =
      Except.error "height and width must be > 0" := rfl

example :
    workerRun ⟨100, 80, false⟩ [] true =
      ⟨[Event.log "No images found in the source folder.", Event.finished,
          Event.finished],
        [], false, true⟩ := by decide

example :
    (workerRun ⟨100, 80, true⟩ [⟨"a.jpg", some ⟨10, 10, Mode.RGB⟩⟩,
        ⟨"b.png", some ⟨10, 10, Mode.RGB⟩⟩] false).events =
      [Event.log "Processed: a.jpg", Event.progress 50,
       Event.log "Processed: b.png", Event.progress 100,
       Event.log "Conversion completed.", Event.finished] := by decide

example :
    startConversion (fun _ => false) ⟨"src", "dst", "100", "80", false⟩ =
      StartResult.rejected "Error: Invalid source folder." := by
  simp [startConversion]

example : pyIsdigit "0080" = true ∧ pyInt "0080" = 80 := by decide
example : pyIsdigit "-5" = false ∧ pyIsdigit "" = false := by decide

/-- Floor-division characterization used for the aspect-ratio bounds. -/
theorem div_mul_bounds (a m : Nat) (hm : 0 < m) :
    a / m * m ≤ a ∧ a < (a / m + 1) * m := by
  refine ⟨Nat.div_mul_le_self a m, ?_⟩
  have h1 : a / m * m + a % m = a := Nat.div_add_mod' a m
  have h2 : a % m < m := Nat.mod_lt a hm
  calc a = a / m * m + a % m := h1.symm
    _ < a / m * m + m := by omega
    _ = (a / m + 1) * m := by ring

/-- `saveImage` never changes the width handed to the encoder. -/
theorem saveImage_width (cfg : Config) (name : String) (img : Image) :
    (saveImage cfg name img).width = img.width := by
  simp only [saveImage]
  split
  · split <;> rfl
  · rfl

/-- `saveImage` never changes the height handed to the encoder. -/
theorem saveImage_height (cfg : Config) (name : String) (img : Image) :
    (saveImage cfg name img).height = img.height := by
  simp only [saveImage]
  split
  · split <;> rfl
  · rfl

/-- **C1.** For every processed image whose longest side is at most the
target size, the output image's dimensions equal the input image's
dimensions: the `img.copy()` branch runs and no resize happens. -/
theorem copy_keeps_dimensions (cfg : Config) (f : FileEntry) (img : Image)
    (out : EncodedOutput)
    (hc : f.content = some img)
    (hle : max img.width img.height ≤ cfg.targetSize)
    (hok : processFile cfg f = Except.ok out) :
    out.width = img.width ∧ out.height = img.height := by
  simp only [processFile, hc, hle, if_true] at hok
  rw [← Except.ok.inj hok]
  exact ⟨saveImage_width cfg f.name img, saveImage_height cfg f.name img⟩

/-- Witness for `copy_keeps_dimensions` at a concrete run: an 800x600 RGB
image with target 1920 is saved with its dimensions unchanged. -/
theorem copy_keeps_dimensions_witness :
    processFile ⟨1920, 80, false⟩ ⟨"a.jpg", some ⟨800, 600, Mode.RGB⟩⟩ =
        Except.ok ⟨"JPEG", some 80, true, 800, 600, Mode.RGB, none⟩ ∧
      (⟨"JPEG", some 80, true, 800, 600, Mode.RGB, none⟩ : EncodedOutput).width
          = 800 ∧
      (⟨"JPEG", some 80, true, 800, 600, Mode.RGB, none⟩ : EncodedOutput).height
          = 600 :=
  ⟨rfl,
    copy_keeps_dimensions ⟨1920, 80, false⟩ ⟨"a.jpg", some ⟨800, 600, Mode.RGB⟩⟩
      ⟨800, 600, Mode.RGB⟩ ⟨"JPEG", some 80, true, 800, 600, Mode.RGB, none⟩
      rfl (by decide) rfl⟩

/-- **C2.** For every processed image whose longest side exceeds the target
size, the output dimensions are `(int(width*ratio), int(height*ratio))` with
`ratio = target_size / max(width, height)`; the output's longest side equals
the target size exactly, and each side is within one pixel of the exact
aspect-preserving value (`side * target / max` scaled by `max`). -/
theorem resize_hits_target (cfg : Config) (f : FileEntry) (img : Image)
    (out : EncodedOutput)
    (hc : f.content = some img)
    (hw : 0 < img.width) (hh : 0 < img.height)
    (hgt : cfg.targetSize < max img.width img.height)
    (hok : processFile cfg f = Except.ok out) :
    out.width = img.width * cfg.targetSize / max img.width img.height ∧
    out.height = img.height * cfg.targetSize / max img.width img.height ∧
    max out.width out.height = cfg.targetSize ∧
    out.width * max img.width img.height ≤ img.width * cfg.targetSize ∧
    img.width * cfg.targetSize < (out.width + 1) * max img.width img.height ∧
    out.height * max img.width img.height ≤ img.height * cfg.targetSize ∧
    img.height * cfg.targetSize < (out.height + 1) * max img.width img.height := by
  have hm : 0 < max img.width img.height := Nat.lt_of_le_of_lt (Nat.zero_le _) hgt
  have hnle : ¬ max img.width img.height ≤ cfg.targetSize := not_le.mpr hgt
  simp only [processFile, hc, computeNewSize, hnle, if_false, pilResize] at hok
  by_cases hz :
      img.width * cfg.targetSize / max img.width img.height = 0 ∨
        img.height * cfg.targetSize / max img.width img.height = 0
  · simp only [hz, if_true] at hok
    exact absurd hok (by simp)
  · simp only [hz, if_false] at hok
    rw [← Except.ok.inj hok, saveImage_width, saveImage_height]
    have B1 := div_mul_bounds (img.width * cfg.targetSize)
      (max img.width img.height) hm
    have B2 := div_mul_bounds (img.height * cfg.targetSize)
      (max img.width img.height) hm
    refine ⟨rfl, rfl, ?_, B1.1, B1.2, B2.1, B2.2⟩
    rcases max_cases img.width img.height with ⟨h1, h2⟩ | ⟨h1, h2⟩
    · have ew : img.width * cfg.targetSize / max img.width img.height
          = cfg.targetSize := by
        rw [h1]
        exact Nat.mul_div_cancel_left cfg.targetSize hw
      have eh : img.height * cfg.targetSize / max img.width img.height
          ≤ cfg.targetSize := by
        rw [h1]
        calc img.height * cfg.targetSize / img.width
            ≤ img.width * cfg.targetSize / img.width :=
              Nat.div_le_div_right (mul_le_mul_right' h2 cfg.targetSize)
          _ = cfg.targetSize := Nat.mul_div_cancel_left cfg.targetSize hw
      show max (img.width * cfg.targetSize / max img.width img.height)
          (img.height * cfg.targetSize / max img.width img.height)
          = cfg.targetSize
      rw [ew]
      exact max_eq_left eh
    · have eh : img.height * cfg.targetSize / max img.width img.height
          = cfg.targetSize := by
        rw [h1]
        exact Nat.mul_div_cancel_left cfg.targetSize hh
      have ew : img.width * cfg.targetSize / max img.width img.height
          ≤ cfg.targetSize := by
        rw [h1]
        calc img.width * cfg.targetSize / img.height
            ≤ img.height * cfg.targetSize / img.height :=
              Nat.div_le_div_right (mul_le_mul_right' h2.le cfg.targetSize)
          _ = cfg.targetSize := Nat.mul_div_cancel_left cfg.targetSize hh
      show max (img.width * cfg.targetSize / max img.width img.height)
          (img.height * cfg.targetSize / max img.width img.height)
          = cfg.targetSize
      rw [eh]
      exact max_eq_right ew

/-- Witness for `resize_hits_target` at a concrete run: a 200x100 RGB image,
target 100, is resized to 100x50. -/
theorem resize_hits_target_witness :
    processFile ⟨100, 80, false⟩ ⟨"w.png", some ⟨200, 100, Mode.RGB⟩⟩ =
        Except.ok ⟨"PNG", none, true, 100, 50, Mode.RGB, none⟩ ∧
      ((⟨"PNG", none, true, 100, 50, Mode.RGB, none⟩ : EncodedOutput).width
          = 200 * 100 / max 200 100 ∧
        (⟨"PNG", none, true, 100, 50, Mode.RGB, none⟩ : EncodedOutput).height
          = 100 * 100 / max 200 100 ∧
        max (⟨"PNG", none, true, 100, 50, Mode.RGB, none⟩ : EncodedOutput).width
          (⟨"PNG", none, true, 100, 50, Mode.RGB, none⟩ : EncodedOutput).height
          = 100 ∧
        (⟨"PNG", none, true, 100, 50, Mode.RGB, none⟩ : EncodedOutput).width
            * max 200 100 ≤ 200 * 100 ∧
        200 * 100 <
          ((⟨"PNG", none, true, 100, 50, Mode.RGB, none⟩ : EncodedOutput).width + 1)
            * max 200 100 ∧
        (⟨"PNG", none, true, 100, 50, Mode.RGB, none⟩ : EncodedOutput).height
            * max 200 100 ≤ 100 * 100 ∧
        100 * 100 <
          ((⟨"PNG", none, true, 100, 50, Mode.RGB, none⟩ : EncodedOutput).height + 1)
            * max 200 100) :=
  ⟨rfl,
    resize_hits_target ⟨100, 80, false⟩ ⟨"w.png", some ⟨200, 100, Mode.RGB⟩⟩
      ⟨200, 100, Mode.RGB⟩ ⟨"PNG", none, true, 100, 50, Mode.RGB, none⟩
      rfl (by decide) (by decide) (by decide) rfl⟩

/-- **C3.** For every processed file, the encoding is chosen by the saved
file's lowercased extension: `.jpg`/`.jpeg` files are saved as JPEG at the
user-specified quality with optimization enabled, flattening `RGBA`/`P`
(alpha/palette) modes onto a white `(255,255,255)` background first; other
files (`.png`) are saved as PNG with optimization enabled and no quality
parameter. -/
theorem encoding_by_extension (cfg : Config) (f : FileEntry) (img : Image)
    (out : EncodedOutput)
    (hc : f.content = some img)
    (hok : processFile cfg f = Except.ok out) :
    ((strLower (pathSuffix f.name) = ".jpg" ∨
        strLower (pathSuffix f.name) = ".jpeg") →
      out.format = "JPEG" ∧ out.quality = some cfg.jpegQuality ∧
      out.optimize = true ∧
      ((img.mode = Mode.RGBA ∨ img.mode = Mode.P) →
        out.mode = Mode.RGB ∧ out.background = some (255, 255, 255)) ∧
      (¬ (img.mode = Mode.RGBA ∨ img.mode = Mode.P) →
        out.mode = img.mode ∧ out.background = none)) ∧
    (¬ (strLower (pathSuffix f.name) = ".jpg" ∨
        strLower (pathSuffix f.name) = ".jpeg") →
      out.format = "PNG" ∧ out.quality = none ∧ out.optimize = true ∧
      out.background = none) := by
  simp only [processFile, hc] at hok
  have key : ∃ nImg : Image, saveImage cfg f.name nImg = out ∧
      nImg.mode = img.mode := by
    by_cases hle : max img.width img.height ≤ cfg.targetSize
    · simp only [hle, if_true] at hok
      exact ⟨img, Except.ok.inj hok, rfl⟩
    · simp only [hle, if_false, computeNewSize, pilResize] at hok
      by_cases hz :
          img.width * cfg.targetSize / max img.width img.height = 0 ∨
            img.height * cfg.targetSize / max img.width img.height = 0
      · simp only [hz, if_true] at hok
        exact absurd hok (by simp)
      · simp only [hz, if_false] at hok
        exact ⟨_, Except.ok.inj hok, rfl⟩
  rcases key with ⟨nImg, hsave, hmode⟩
  subst hsave
  simp only [saveImage, hmode]
  by_cases hext : strLower (pathSuffix f.name) = ".jpg" ∨
      strLower (pathSuffix f.name) = ".jpeg"
  · refine ⟨fun _ => ?_, fun h => absurd hext h⟩
    rw [if_pos hext]
    by_cases hmode2 : img.mode = Mode.RGBA ∨ img.mode = Mode.P
    · rw [if_pos hmode2]
      exact ⟨rfl, rfl, rfl, fun _ => ⟨rfl, rfl⟩, fun h => absurd hmode2 h⟩
    · rw [if_neg hmode2]
      exact ⟨rfl, rfl, rfl, fun h => absurd h hmode2, fun _ => ⟨rfl, rfl⟩⟩
  · refine ⟨fun h => absurd h hext, fun _ => ?_⟩
    rw [if_neg hext]
    exact ⟨rfl, rfl, rfl, rfl⟩

/-- Witness for `encoding_by_extension` at a concrete run: a palette-mode
`.jpeg` file is flattened onto white and saved as JPEG at quality 90. -/
theorem encoding_by_extension_witness :
    processFile ⟨100, 90, false⟩ ⟨"c.jpeg", some ⟨100, 200, Mode.P⟩⟩ =
        Except.ok ⟨"JPEG", some 90, true, 50, 100, Mode.RGB, some (255, 255, 255)⟩ ∧
      (((strLower (pathSuffix "c.jpeg") = ".jpg" ∨
          strLower (pathSuffix "c.jpeg") = ".jpeg") →
        (⟨"JPEG", some 90, true, 50, 100, Mode.RGB,
            some (255, 255, 255)⟩ : EncodedOutput).format = "JPEG" ∧
        (⟨"JPEG", some 90, true, 50, 100, Mode.RGB,
            some (255, 255, 255)⟩ : EncodedOutput).quality = some 90 ∧
        (⟨"JPEG", some 90, true, 50, 100, Mode.RGB,
            some (255, 255, 255)⟩ : EncodedOutput).optimize = true ∧
        ((Mode.P = Mode.RGBA ∨ Mode.P = Mode.P) →
          (⟨"JPEG", some 90, true, 50, 100, Mode.RGB,
              some (255, 255, 255)⟩ : EncodedOutput).mode = Mode.RGB ∧
          (⟨"JPEG", some 90, true, 50, 100, Mode.RGB,
              some (255, 255, 255)⟩ : EncodedOutput).background
            = some (255, 255, 255)) ∧
        (¬ (Mode.P = Mode.RGBA ∨ Mode.P = Mode.P) →
          (⟨"JPEG", some 90, true, 50, 100, Mode.RGB,
              some (255, 255, 255)⟩ : EncodedOutput).mode = Mode.P ∧
          (⟨"JPEG", some 90, true, 50, 100, Mode.RGB,
              some (255, 255, 255)⟩ : EncodedOutput).background = none)) ∧
      (¬ (strLower (pathSuffix "c.jpeg") = ".jpg" ∨
          strLower (pathSuffix "c.jpeg") = ".jpeg") →
        (⟨"JPEG", some 90, true, 50, 100, Mode.RGB,
            some (255, 255, 255)⟩ : EncodedOutput).format = "PNG" ∧
        (⟨"JPEG", some 90, true, 50, 100, Mode.RGB,
            some (255, 255, 255)⟩ : EncodedOutput).quality = none ∧
        (⟨"JPEG", some 90, true, 50, 100, Mode.RGB,
            some (255, 255, 255)⟩ : EncodedOutput).optimize = true ∧
        (⟨"JPEG", some 90, true, 50, 100, Mode.RGB,
            some (255, 255, 255)⟩ : EncodedOutput).background = none)) :=
  ⟨rfl,
    encoding_by_extension ⟨100, 90, false⟩ ⟨"c.jpeg", some ⟨100, 200, Mode.P⟩⟩
      ⟨100, 200, Mode.P⟩
      ⟨"JPEG", some 90, true, 50, 100, Mode.RGB, some (255, 255, 255)⟩ rfl rfl⟩

/-- The per-file loop distributes over list concatenation, shifting the
index by the length of the first part. -/
theorem loopEvents_append (cfg : Config) (total : Nat) (xs ys : List FileEntry)
    (i : Nat) :
    loopEvents cfg total (xs ++ ys) i =
      loopEvents cfg total xs i ++ loopEvents cfg total ys (i + xs.length) := by
  induction xs generalizing i with
  | nil => simp [loopEvents]
  | cons f rest ih =>
      simp only [List.cons_append, loopEvents, List.length_cons, List.append_eq]
      rw [ih]
      have h : i + 1 + rest.length = i + (rest.length + 1) := by omega
      rw [h]

/-- Every file's loop iteration emits a log event. -/
theorem fileLog_is_log (cfg : Config) (f : FileEntry) :
    ∃ s, fileLog cfg f = Event.log s := by
  unfold fileLog
  cases processFile cfg f <;> exact ⟨_, rfl⟩

/-- **C4.** A per-file failure is caught: the failing file's iteration emits
`Error with <name>: <message>` and its progress update, and the events of
every preceding and following file are exactly those of the loop without the
failure — processing continues and a failure never halts the run, which
still ends with `Conversion completed.` and the `finished` signal. -/
theorem per_file_error_isolated (cfg : Config) (dirFiles : List FileEntry)
    (destExists : Bool) (pre post : List FileEntry) (bad : FileEntry)
    (e : String)
    (hsplit : enumerateImages dirFiles = pre ++ bad :: post)
    (herr : processFile cfg bad = Except.error e) :
    (workerRun cfg dirFiles destExists).events =
      loopEvents cfg (enumerateImages dirFiles).length pre 0 ++
        Event.log ("Error with " ++ bad.name ++ ": " ++ e) ::
        Event.progress
          ((pre.length + 1) * 100 / (enumerateImages dirFiles).length) ::
        (loopEvents cfg (enumerateImages dirFiles).length post (pre.length + 1) ++
          [Event.log "Conversion completed.", Event.finished]) := by
  have htot : ¬ (enumerateImages dirFiles).length = 0 := by
    rw [hsplit]
    simp
  simp only [workerRun]
  rw [if_neg htot]
  rw [hsplit]
  rw [loopEvents_append]
  simp only [loopEvents, fileLog, herr, Nat.zero_add, List.append_assoc,
    List.cons_append, List.nil_append]

/-- Witness for `per_file_error_isolated` at a concrete run: the corrupt
`bad.jpg` between two good files is logged and the third file's events still
appear. -/
theorem per_file_error_isolated_witness :
    (workerRun ⟨100, 80, true⟩
        [⟨"a.jpg", some ⟨10, 10, Mode.RGB⟩⟩, ⟨"bad.jpg", none⟩,
          ⟨"c.png", some ⟨10, 10, Mode.RGB⟩⟩] true).events =
      loopEvents ⟨100, 80, true⟩
          (enumerateImages
            [⟨"a.jpg", some ⟨10, 10, Mode.RGB⟩⟩, ⟨"bad.jpg", none⟩,
              ⟨"c.png", some ⟨10, 10, Mode.RGB⟩⟩]).length
          [⟨"a.jpg", some ⟨10, 10, Mode.RGB⟩⟩] 0 ++
        Event.log ("Error with " ++ "bad.jpg" ++ ": " ++
          "cannot identify image file") ::
        Event.progress
          (([(⟨"a.jpg", some ⟨10, 10, Mode.RGB⟩⟩ : FileEntry)].length + 1) * 100 /
            (enumerateImages
              [⟨"a.jpg", some ⟨10, 10, Mode.RGB⟩⟩, ⟨"bad.jpg", none⟩,
                ⟨"c.png", some ⟨10, 10, Mode.RGB⟩⟩]).length) ::
        (loopEvents ⟨100, 80, true⟩
            (enumerateImages
              [⟨"a.jpg", some ⟨10, 10, Mode.RGB⟩⟩, ⟨"bad.jpg", none⟩,
                ⟨"c.png", some ⟨10, 10, Mode.RGB⟩⟩]).length
            [⟨"c.png", some ⟨10, 10, Mode.RGB⟩⟩]
            ([(⟨"a.jpg", some ⟨10, 10, Mode.RGB⟩⟩ : FileEntry)].length + 1) ++
          [Event.log "Conversion completed.", Event.finished]) :=
  per_file_error_isolated ⟨100, 80, true⟩
    [⟨"a.jpg", some ⟨10, 10, Mode.RGB⟩⟩, ⟨"bad.jpg", none⟩,
      ⟨"c.png", some ⟨10, 10, Mode.RGB⟩⟩] true
    [⟨"a.jpg", some ⟨10, 10, Mode.RGB⟩⟩] [⟨"c.png", some ⟨10, 10, Mode.RGB⟩⟩]
    ⟨"bad.jpg", none⟩ "cannot identify image file" rfl rfl

/-- **C5.** When zero files match the extensions, the run logs
`No images found in the source folder.` and emits completion — the explicit
`finished.emit()` of line 50, then a second `finished` from the `finally`
block running on the early return — with no other event: in particular no
progress value is ever emitted and no error is logged. -/
theorem no_images_found (cfg : Config) (dirFiles : List FileEntry)
    (destExists : Bool)
    (h : enumerateImages dirFiles = []) :
    (workerRun cfg dirFiles destExists).events =
        [Event.log "No images found in the source folder.", Event.finished,
          Event.finished] ∧
      progressValues (workerRun cfg dirFiles destExists).events = [] := by
  simp only [workerRun, h]
  exact ⟨rfl, rfl⟩

/-- Witness for `no_images_found`: a directory holding only `notes.txt`. -/
theorem no_images_found_witness :
    (workerRun ⟨100, 80, false⟩ [⟨"notes.txt", none⟩] false).events =
        [Event.log "No images found in the source folder.", Event.finished,
          Event.finished] ∧
      progressValues (workerRun ⟨100, 80, false⟩ [⟨"notes.txt", none⟩]
        false).events = [] :=
  no_images_found ⟨100, 80, false⟩ [⟨"notes.txt", none⟩] false rfl

theorem progressValues_append (xs ys : List Event) :
    progressValues (xs ++ ys) = progressValues xs ++ progressValues ys := by
  induction xs with
  | nil => rfl
  | cons e rest ih => cases e <;> simp [progressValues, ih]

/-- The progress values of the per-file loop started at index `i`: one value
per file, the `k`-th (1-based, counted from `i`) being `(i + k) * 100 / total`. -/
theorem progressValues_loopEvents (cfg : Config) (total : Nat)
    (files : List FileEntry) (i : Nat) :
    progressValues (loopEvents cfg total files i) =
      (List.range' (i + 1) files.length).map (fun k => k * 100 / total) := by
  induction files generalizing i with
  | nil => rfl
  | cons f rest ih =>
      obtain ⟨s, hs⟩ := fileLog_is_log cfg f
      simp only [loopEvents, hs, progressValues, List.length_cons,
        List.range'_succ, List.map_cons]
      rw [ih]

/-- **C6.** For every run with at least one matching file, the emitted
progress sequence is exactly one value per file, the `k`-th (1-based) being
`int(k / total * 100) = k * 100 / total` — the integer percentage of files
completed — and that sequence is non-decreasing. -/
theorem progress_sequence (cfg : Config) (dirFiles : List FileEntry)
    (destExists : Bool)
    (h : enumerateImages dirFiles ≠ []) :
    progressValues (workerRun cfg dirFiles destExists).events =
        (List.range' 1 (enumerateImages dirFiles).length).map
          (fun k => k * 100 / (enumerateImages dirFiles).length) ∧
      (progressValues (workerRun cfg dirFiles destExists).events).Pairwise
        (· ≤ ·) := by
  have htot : ¬ (enumerateImages dirFiles).length = 0 := by
    simpa [List.length_eq_zero] using h
  have hev : progressValues (workerRun cfg dirFiles destExists).events =
      (List.range' 1 (enumerateImages dirFiles).length).map
        (fun k => k * 100 / (enumerateImages dirFiles).length) := by
    simp only [workerRun]
    rw [if_neg htot]
    rw [progressValues_append, progressValues_loopEvents]
    simp [progressValues]
  refine ⟨hev, ?_⟩
  rw [hev, List.pairwise_map]
  exact (List.pairwise_lt_range' 1 (enumerateImages dirFiles).length).imp
    (fun hab => Nat.div_le_div_right (Nat.mul_le_mul_right 100 hab.le))

/-- Witness for `progress_sequence`: two matching files give the progress
sequence `[50, 100]`. -/
theorem progress_sequence_witness :
    progressValues (workerRun ⟨100, 80, true⟩
        [⟨"a.jpg", some ⟨10, 10, Mode.RGB⟩⟩,
          ⟨"b.png", some ⟨10, 10, Mode.RGB⟩⟩] true).events =
        (List.range' 1 (enumerateImages
            [⟨"a.jpg", some ⟨10, 10, Mode.RGB⟩⟩,
              ⟨"b.png", some ⟨10, 10, Mode.RGB⟩⟩]).length).map
          (fun k => k * 100 / (enumerateImages
            [⟨"a.jpg", some ⟨10, 10, Mode.RGB⟩⟩,
              ⟨"b.png", some ⟨10, 10, Mode.RGB⟩⟩]).length) ∧
      (progressValues (workerRun ⟨100, 80, true⟩
          [⟨"a.jpg", some ⟨10, 10, Mode.RGB⟩⟩,
            ⟨"b.png", some ⟨10, 10, Mode.RGB⟩⟩] true).events).Pairwise
        (· ≤ ·) :=
  progress_sequence ⟨100, 80, true⟩
    [⟨"a.jpg", some ⟨10, 10, Mode.RGB⟩⟩, ⟨"b.png", some ⟨10, 10, Mode.RGB⟩⟩]
    true (by decide)

/-- **C7.** In overwrite mode a run never creates a destination directory;
in non-overwrite mode it creates the destination directory exactly when the
directory is absent, and the directory exists afterwards. -/
theorem mkdir_policy (cfg : Config) (dirFiles : List FileEntry)
    (destExists : Bool) :
    (cfg.overwrite = true →
      (workerRun cfg dirFiles destExists).mkdirCalled = false) ∧
    (cfg.overwrite = false →
      (workerRun cfg dirFiles destExists).mkdirCalled = !destExists ∧
      (workerRun cfg dirFiles destExists).destExistsAfter = true) := by
  constructor
  · intro h
    simp only [workerRun]
    split <;> simp [h]
  · intro h
    simp only [workerRun]
    split <;> simp [h]

/-- Witness for `mkdir_policy`: an overwrite run touches no directory; a
non-overwrite run with the destination absent creates it. -/
theorem mkdir_policy_witness :
    (workerRun ⟨100, 80, true⟩ [] false).mkdirCalled = false ∧
      (workerRun ⟨100, 80, false⟩ [] false).mkdirCalled = !false ∧
      (workerRun ⟨100, 80, false⟩ [] false).destExistsAfter = true :=
  ⟨(mkdir_policy ⟨100, 80, true⟩ [] false).1 rfl,
    (mkdir_policy ⟨100, 80, false⟩ [] false).2 rfl⟩

/-- The invalid-submission classes of the claim: non-existent (or empty)
source folder, non-existent (or empty) destination folder in non-overwrite
mode, non-numeric or non-positive size, quality non-numeric or outside
`[1, 95]`. -/
def invalidInput (isdir : String → Bool) (ui : UIState) : Prop :=
  (ui.inputText.trim = "" ∨ ¬ isdir ui.inputText.trim) ∨
  (¬ ui.overwrite ∧ (ui.outputText.trim = "" ∨ ¬ isdir ui.outputText.trim)) ∨
  (¬ pyIsdigit ui.sizeText.trim ∨ pyInt ui.sizeText.trim ≤ 0) ∨
  (¬ pyIsdigit ui.qualityText.trim ∨
    ¬ (1 ≤ pyInt ui.qualityText.trim ∧ pyInt ui.qualityText.trim ≤ 95))

/-- **C8.** Every submission with invalid input is rejected before any task
starts: `start_conversion` appends exactly one of the four constraint error
lines and returns, and no worker is created. -/
theorem invalid_input_rejected (isdir : String → Bool) (ui : UIState)
    (h : invalidInput isdir ui) :
    ∃ msg, startConversion isdir ui = StartResult.rejected msg ∧
      (msg = "Error: Invalid source folder." ∨
        msg = "Error: Invalid destination folder." ∨
        msg = "Error: Please enter a valid number greater than 0 for the image size." ∨
        msg = "Error: Image quality must be a number between 1 and 95.") ∧
      ∀ cfg, startConversion isdir ui ≠ StartResult.started cfg := by
  have reject : ∀ msg, startConversion isdir ui = StartResult.rejected msg →
      ∀ cfg, startConversion isdir ui ≠ StartResult.started cfg := by
    intro msg hmsg cfg hstart
    rw [hmsg] at hstart
    exact StartResult.noConfusion hstart
  by_cases h1 : ui.inputText.trim = "" ∨ ¬ isdir ui.inputText.trim
  · have hr : startConversion isdir ui =
        StartResult.rejected "Error: Invalid source folder." := by
      simp only [startConversion]
      rw [if_pos h1]
    exact ⟨_, hr, Or.inl rfl, reject _ hr⟩
  · by_cases h2 : ¬ ui.overwrite ∧
        (ui.outputText.trim = "" ∨ ¬ isdir ui.outputText.trim)
    · have hr : startConversion isdir ui =
          StartResult.rejected "Error: Invalid destination folder." := by
        simp only [startConversion]
        rw [if_neg h1, if_pos h2]
      exact ⟨_, hr, Or.inr (Or.inl rfl), reject _ hr⟩
    · by_cases h3 : ¬ pyIsdigit ui.sizeText.trim ∨ pyInt ui.sizeText.trim ≤ 0
      · have hr : startConversion isdir ui = StartResult.rejected
            "Error: Please enter a valid number greater than 0 for the image size." := by
          simp only [startConversion]
          rw [if_neg h1, if_neg h2, if_pos h3]
        exact ⟨_, hr, Or.inr (Or.inr (Or.inl rfl)), reject _ hr⟩
      · by_cases h4 : ¬ pyIsdigit ui.qualityText.trim ∨
            ¬ (1 ≤ pyInt ui.qualityText.trim ∧ pyInt ui.qualityText.trim ≤ 95)
        · have hr : startConversion isdir ui = StartResult.rejected
              "Error: Image quality must be a number between 1 and 95." := by
            simp only [startConversion]
            rw [if_neg h1, if_neg h2, if_neg h3, if_pos h4]
          exact ⟨_, hr, Or.inr (Or.inr (Or.inr rfl)), reject _ hr⟩
        · rcases h with h | h | h | h
          · exact absurd h h1
          · exact absurd h h2
          · exact absurd h h3
          · exact absurd h h4

/-- Witness for `invalid_input_rejected`: with no directory existing, a
submission is rejected with one of the four error lines. -/
theorem invalid_input_rejected_witness :
    ∃ msg, startConversion (fun _ => false) ⟨"x", "y", "100", "80", false⟩ =
        StartResult.rejected msg ∧
      (msg = "Error: Invalid source folder." ∨
        msg = "Error: Invalid destination folder." ∨
        msg = "Error: Please enter a valid number greater than 0 for the image size." ∨
        msg = "Error: Image quality must be a number between 1 and 95.") ∧
      ∀ cfg, startConversion (fun _ => false) ⟨"x", "y", "100", "80", false⟩ ≠
        StartResult.started cfg :=
  invalid_input_rejected (fun _ => false) ⟨"x", "y", "100", "80", false⟩
    (Or.inl (Or.inr (by decide)))

/-- **C9.** There is a valid configuration and an image with both dimensions
positive and longest side above the target for which the computed new size
has a zero component, so that iteration cannot produce a well-formed output
image and lands in the per-file error branch. -/
theorem zero_dimension_resize_exists :
    ∃ (cfg : Config) (f : FileEntry) (img : Image),
      1 ≤ cfg.targetSize ∧ 1 ≤ cfg.jpegQuality ∧ cfg.jpegQuality ≤ 95 ∧
      f.content = some img ∧ 0 < img.width ∧ 0 < img.height ∧
      cfg.targetSize < max img.width img.height ∧
      (computeNewSize cfg.targetSize img.width img.height).1 = 0 ∧
      processFile cfg f = Except.error "height and width must be > 0" :=
  ⟨⟨100, 80, false⟩, ⟨"tall.png", some ⟨1, 200, Mode.RGB⟩⟩, ⟨1, 200, Mode.RGB⟩,
    by decide, by decide, by decide, rfl, by decide, by decide, by decide,
    by decide, rfl⟩

/-- Every saved output is named after some file of the processed list. -/
theorem loopOutputs_names (cfg : Config) (files : List FileEntry) :
    ∀ o ∈ loopOutputs cfg files, ∃ g ∈ files, o.1 = g.name := by
  induction files with
  | nil => simp [loopOutputs]
  | cons f rest ih =>
      intro o ho
      simp only [loopOutputs] at ho
      rcases hpf : processFile cfg f with e | out <;> rw [hpf] at ho
      · obtain ⟨g, hg, hname⟩ := ih o ho
        exact ⟨g, List.mem_cons_of_mem f hg, hname⟩
      · rcases List.mem_cons.mp ho with rfl | ho'
        · exact ⟨f, List.mem_cons_self f rest, rfl⟩
        · obtain ⟨g, hg, hname⟩ := ih o ho'
          exact ⟨g, List.mem_cons_of_mem f hg, hname⟩

/-- **C10.** Enumeration matches only exact lowercase extensions: the
processed list is the `*.jpg`, `*.jpeg`, `*.png` matches in that pattern
order, so a file whose extension differs in case (such as `.JPG`) is never
enumerated and no output is produced under its name. -/
theorem case_sensitive_enumeration (cfg : Config) (dirFiles : List FileEntry)
    (destExists : Bool) (f : FileEntry)
    (hjpg : matchesExt f.name ".jpg" = false)
    (hjpeg : matchesExt f.name ".jpeg" = false)
    (hpng : matchesExt f.name ".png" = false) :
    enumerateImages dirFiles =
        dirFiles.filter (fun g => matchesExt g.name ".jpg") ++
          dirFiles.filter (fun g => matchesExt g.name ".jpeg") ++
          dirFiles.filter (fun g => matchesExt g.name ".png") ∧
      f ∉ enumerateImages dirFiles ∧
      ∀ o ∈ (workerRun cfg dirFiles destExists).outputs, o.1 ≠ f.name := by
  refine ⟨rfl, ?_, ?_⟩
  · intro hmem
    simp only [enumerateImages, globExt, List.mem_append, List.mem_filter]
      at hmem
    rcases hmem with (⟨_, h⟩ | ⟨_, h⟩) | ⟨_, h⟩
    · rw [hjpg] at h
      exact Bool.noConfusion h
    · rw [hjpeg] at h
      exact Bool.noConfusion h
    · rw [hpng] at h
      exact Bool.noConfusion h
  · intro o ho heq
    have hsrc : ∃ g ∈ enumerateImages dirFiles, o.1 = g.name := by
      simp only [workerRun] at ho
      split at ho
      · exact absurd ho (List.not_mem_nil o)
      · exact loopOutputs_names cfg (enumerateImages dirFiles) o ho
    obtain ⟨g, hg, hname⟩ := hsrc
    have hfg : g.name = f.name := hname.symm.trans heq
    simp only [enumerateImages, globExt, List.mem_append, List.mem_filter]
      at hg
    rcases hg with (⟨_, h⟩ | ⟨_, h⟩) | ⟨_, h⟩
    · rw [hfg, hjpg] at h
      exact Bool.noConfusion h
    · rw [hfg, hjpeg] at h
      exact Bool.noConfusion h
    · rw [hfg, hpng] at h
      exact Bool.noConfusion h

/-- Witness for `case_sensitive_enumeration`: a directory holding only
`photo.JPG` enumerates nothing and saves nothing. -/
theorem case_sensitive_enumeration_witness :
    enumerateImages [⟨"photo.JPG", some ⟨10, 10, Mode.RGB⟩⟩] =
        List.filter (fun g => matchesExt g.name ".jpg")
            [⟨"photo.JPG", some ⟨10, 10, Mode.RGB⟩⟩] ++
          List.filter (fun g => matchesExt g.name ".jpeg")
            [⟨"photo.JPG", some ⟨10, 10, Mode.RGB⟩⟩] ++
          List.filter (fun g => matchesExt g.name ".png")
            [⟨"photo.JPG", some ⟨10, 10, Mode.RGB⟩⟩] ∧
      (⟨"photo.JPG", some ⟨10, 10, Mode.RGB⟩⟩ : FileEntry) ∉
        enumerateImages [⟨"photo.JPG", some ⟨10, 10, Mode.RGB⟩⟩] ∧
      ∀ o ∈ (workerRun ⟨100, 80, false⟩
          [⟨"photo.JPG", some ⟨10, 10, Mode.RGB⟩⟩] true).outputs,
        o.1 ≠ "photo.JPG" :=
  case_sensitive_enumeration ⟨100, 80, false⟩
    [⟨"photo.JPG", some ⟨10, 10, Mode.RGB⟩⟩] true
    ⟨"photo.JPG", some ⟨10, 10, Mode.RGB⟩⟩ (by decide) (by decide) (by decide)

end BulkResizer
